import Mathlib

set_option maxRecDepth 40000

/-!
Verification of `nse_wyckoff_scanner.py`.

The embedding models the two pure components of the scanner — the markup
detector `detect_markup` and the symbol-source fallback `get_nse_symbol_list`
— together with the driver loop that accumulates the flagged-candidate list
and the markup dataset. Prices and volumes are modelled as rationals; a
`Series` is a `List Bar`.
-/

/-- One daily OHLCV bar (`date`, `Open`, `High`, `Low`, `Close`, `Volume`).
Prices and volume are modelled as rationals; `opn` stands for the `Open`
field (`open` is a reserved word). -/
structure Bar where
  date : Nat
  opn : ℚ
  high : ℚ
  low : ℚ
  close : ℚ
  volume : ℚ
deriving Repr, DecidableEq

/-- `ACCUMULATION_RANGE = 30` from the CONFIG section. -/
def ACCUMULATION_RANGE : Nat := 30

/-- `BREAKOUT_THRESHOLD = 0.05` from the CONFIG section. -/
def BREAKOUT_THRESHOLD : ℚ := 5 / 100

/-- `VOLUME_MULTIPLIER = 1.5` from the CONFIG section. -/
def VOLUME_MULTIPLIER : ℚ := 3 / 2

/-- Python slice `df[-n:]`: the most recent `n` bars (the whole list when it
has fewer than `n` elements, as with a negative slice in Python). -/
def lastN (n : Nat) (df : List Bar) : List Bar :=
  df.drop (df.length - n)

/-- `series.max()` on a column: the maximum of a list of rationals
(`0` on the empty list, which the detector never reaches because of the
length guard). -/
def seriesMax : List ℚ → ℚ
  | [] => 0
  | x :: rest => rest.foldl max x

/-- `series.mean()` on a column: sum divided by length. -/
def seriesMean (xs : List ℚ) : ℚ :=
  xs.sum / (xs.length : ℚ)

/-- `series.iloc[-1]` on a column mapped out of the bars:
the last value (`0` on the empty list, never reached past the guard). -/
def lastValue (xs : List ℚ) : ℚ :=
  xs.getLastD 0

/-- `all(col.iloc[i] >= col.iloc[i-1] for i in range(1, len(col)))`:
every consecutive pair compared non-strictly (`≥`). -/
def nondecreasing : List ℚ → Bool
  | [] => true
  | [_] => true
  | x :: y :: rest => decide (x ≤ y) && nondecreasing (y :: rest)

/-- `recent = df[-ACCUMULATION_RANGE:]`. -/
def recentWindow (df : List Bar) : List Bar :=
  lastN ACCUMULATION_RANGE df

/-- `acc_high = recent["High"].max()`. -/
def accHigh (df : List Bar) : ℚ :=
  seriesMax ((recentWindow df).map Bar.high)

/-- `last_close = df["Close"].iloc[-1]`. -/
def lastClose (df : List Bar) : ℚ :=
  lastValue (df.map Bar.close)

/-- `avg_vol = recent["Volume"].mean()`. -/
def avgVol (df : List Bar) : ℚ :=
  seriesMean ((recentWindow df).map Bar.volume)

/-- `df["Volume"].iloc[-1]`. -/
def lastVolume (df : List Bar) : ℚ :=
  lastValue (df.map Bar.volume)

/-- `recent_10 = df[-10:]`, the trend window. -/
def trendWindow (df : List Bar) : List Bar :=
  lastN 10 df

/-- `breakout = last_close > acc_high * (1 + BREAKOUT_THRESHOLD)`. -/
def breakoutFlag (df : List Bar) : Bool :=
  decide (lastClose df > accHigh df * (1 + BREAKOUT_THRESHOLD))

/-- `vol_breakout = df["Volume"].iloc[-1] > avg_vol * VOLUME_MULTIPLIER`. -/
def volBreakoutFlag (df : List Bar) : Bool :=
  decide (lastVolume df > avgVol df * VOLUME_MULTIPLIER)

/-- `higher_highs`: consecutive highs of the trend window compared with `≥`. -/
def higherHighs (df : List Bar) : Bool :=
  nondecreasing ((trendWindow df).map Bar.high)

/-- `higher_lows`: consecutive lows of the trend window compared with `≥`. -/
def higherLows (df : List Bar) : Bool :=
  nondecreasing ((trendWindow df).map Bar.low)

/-- `detect_markup(df)`: the markup detector. The `try/except` wrapper of the
Python source maps any internal failure to `False`; in this embedding every
partial access (`iloc[-1]`, `.max()`) is totalised with a default that is
never reached past the `len(df) < ACCUMULATION_RANGE` guard, so the function
is total by construction. -/
def detect_markup (df : List Bar) : Bool :=
  if df.length < ACCUMULATION_RANGE then false
  else if (trendWindow df).length < 2 then
    breakoutFlag df && volBreakoutFlag df
  else
    breakoutFlag df && volBreakoutFlag df && (higherHighs df || higherLows df)

/-- Outcome of the remote NSE request in `get_nse_symbol_list`. `failure`
covers every exception path of the `try` block (network error, non-JSON
response, malformed payload, blocked request); `success` carries the
`data` list of the JSON payload, each item with its optional `symbol`
string field. -/
inductive SymbolFetchOutcome where
  | failure : SymbolFetchOutcome
  | success : List (Option String) → SymbolFetchOutcome

/-- The fixed built-in fallback list returned when the NSE fetch fails. -/
def FALLBACK_SYMBOLS : List String :=
  ["RELIANCE.NS", "TCS.NS", "HDFCBANK.NS", "INFY.NS", "LT.NS"]

/-- `get_nse_symbol_list()`: on success builds
`[item["symbol"] + ".NS" for item in data.get("data", []) if item.get("symbol")]`
(the truthiness test drops missing and empty symbol fields); on any failure
returns the fallback list. -/
def get_nse_symbol_list : SymbolFetchOutcome → List String
  | .failure => FALLBACK_SYMBOLS
  | .success items =>
      items.filterMap fun it =>
        match it with
        | none => none
        | some s => if s = "" then none else some (s ++ ".NS")

/-- What the historical-data provider hands the driver for one symbol:
`err` models a per-symbol exception caught by the loop's `try/except`;
`data df` models a successful download (after column selection and
`dropna`), where `df = []` models `df.empty`. -/
inductive FetchResult where
  | err : FetchResult
  | data : List Bar → FetchResult

/-- The two accumulating collections of the driver loop:
`markup_candidates` and `markup_data`. The dataset is kept as an ordered
association list of (bare name, Series). -/
structure ScanState where
  markup_candidates : List String
  markup_data : List (String × List Bar)

/-- One iteration of the scan loop for symbol `sym` with fetch result
`res`: an exception or an empty download leaves the state unchanged; a
positive detection appends `sym.replace(".NS", "")` to the candidate list
and keys the Series under the same name in the dataset. -/
def processSymbol (st : ScanState) (sym : String) (res : FetchResult) : ScanState :=
  match res with
  | .err => st
  | .data df =>
      if df.isEmpty then st
      else if detect_markup df then
        let name := sym.replace ".NS" ""
        { markup_candidates := st.markup_candidates ++ [name],
          markup_data := st.markup_data ++ [(name, df)] }
      else st

/-- The driver loop of `main()`: fold `processSymbol` over the Universe
(each symbol paired with its fetch result) starting from empty collections. -/
def runLoop (inputs : List (String × FetchResult)) : ScanState :=
  inputs.foldl (fun st p => processSymbol st p.1 p.2) ⟨[], []⟩

/-- The summary object written to `markup_candidates.json` (the timestamp
field is a wall-clock string and is not modelled). -/
structure ScanSummary where
  total_scanned : Nat
  markup_count : Nat
  markup_candidates : List String

/-- Building the summary after the loop: `total_scanned = len(symbols)`,
`markup_count = len(markup_candidates)`. -/
def buildSummary (symbols : List String) (st : ScanState) : ScanSummary :=
  { total_scanned := symbols.length,
    markup_count := st.markup_candidates.length,
    markup_candidates := st.markup_candidates }

/-- The whole run of `main()` past the symbol fetch: loop, then summary;
returns the summary and the markup dataset. -/
def runScan (inputs : List (String × FetchResult)) : ScanSummary × List (String × List Bar) :=
  let st := runLoop inputs
  (buildSummary (inputs.map Prod.fst) st, st.markup_data)

/-- The last bar's `High` column value, `df["High"].iloc[-1]` (used to state
the spec's claim that a last close below the last high can never break out). -/
def lastHigh (df : List Bar) : ℚ :=
  lastValue (df.map Bar.high)

/-- Strict increase over consecutive values; this is the spec scenario's
"strictly increasing in high" condition, stated for comparison with the
non-strict `nondecreasing` used by the code. -/
def strictlyIncreasing : List ℚ → Bool
  | [] => true
  | [_] => true
  | x :: y :: rest => decide (x < y) && strictlyIncreasing (y :: rest)

/-! ### Concrete witness inputs -/

/-- A single-bar Series (29 bars short of the accumulation window). -/
def W3 : List Bar := [⟨0, 1, 1, 1, 1, 1⟩]

/-- A 30-bar Series, flat at 100 with last close equal to the last high. -/
def W2 : List Bar := List.replicate 30 ⟨0, 100, 100, 100, 100, 10⟩

/-- A 30-bar Series flat at 100 whose last bar closes at 103 (inside the 5%
breakout band) on a large volume spike. -/
def W4 : List Bar :=
  List.replicate 29 ⟨0, 100, 100, 100, 100, 10⟩ ++ [⟨0, 100, 100, 100, 103, 100⟩]

/-- A 30-bar Series flat at 100 in highs/lows, last close 106, volumes 27 on
the first 29 bars and 87 on the last: the 30-bar mean volume is
`(29 * 27 + 87) / 30 = 29`, so the last volume is exactly three times it. -/
def W5 : List Bar :=
  List.replicate 29 ⟨0, 100, 100, 100, 100, 27⟩ ++ [⟨0, 100, 100, 100, 106, 87⟩]

/-- A concrete two-symbol run: one successful download and one per-symbol
fetch failure. -/
def I0 : List (String × FetchResult) :=
  [("RELIANCE.NS", FetchResult.data W5), ("TCS.NS", FetchResult.err)]

/-! ### Helper lemmas -/

theorem foldl_max_le_init (l : List ℚ) (b : ℚ) : b ≤ l.foldl max b := by
  induction l generalizing b with
  | nil => simp
  | cons a t ih =>
    rw [List.foldl_cons]
    exact le_trans (le_max_left b a) (ih (max b a))

theorem le_foldl_max (l : List ℚ) (b x : ℚ) (hx : x ∈ l) : x ≤ l.foldl max b := by
  induction l generalizing b with
  | nil => cases hx
  | cons a t ih =>
    rw [List.foldl_cons]
    rcases List.mem_cons.mp hx with h | h
    · subst h
      exact le_trans (le_max_right b x) (foldl_max_le_init t _)
    · exact ih _ h

theorem le_seriesMax (xs : List ℚ) (x : ℚ) (hx : x ∈ xs) : x ≤ seriesMax xs := by
  cases xs with
  | nil => cases hx
  | cons a t =>
    rcases List.mem_cons.mp hx with h | h
    · subst h
      exact foldl_max_le_init t x
    · exact le_foldl_max t a x h

theorem foldl_max_const (c : ℚ) (l : List ℚ) (h : ∀ x ∈ l, x = c) :
    l.foldl max c = c := by
  induction l with
  | nil => rfl
  | cons a t ih =>
    rw [List.foldl_cons, h a (List.mem_cons_self a t), max_self]
    exact ih fun x hx => h x (List.mem_cons_of_mem a hx)

theorem seriesMax_const (c : ℚ) (xs : List ℚ) (h : ∀ x ∈ xs, x = c) (hne : xs ≠ []) :
    seriesMax xs = c := by
  cases xs with
  | nil => cases hne rfl
  | cons a t =>
    have ha : a = c := h a (List.mem_cons_self a t)
    show t.foldl max a = c
    rw [ha]
    exact foldl_max_const c t fun x hx => h x (List.mem_cons_of_mem a hx)

theorem nondecreasing_const (c : ℚ) :
    ∀ xs : List ℚ, (∀ x ∈ xs, x = c) → nondecreasing xs = true
  | [], _ => rfl
  | [_], _ => rfl
  | x :: y :: rest, h => by
    have hx : x = c := h x (List.mem_cons_self _ _)
    have hy : y = c := h y (List.mem_cons_of_mem _ (List.mem_cons_self _ _))
    have hrec := nondecreasing_const c (y :: rest)
      fun z hz => h z (List.mem_cons_of_mem x hz)
    subst hx
    subst hy
    simp [nondecreasing, hrec]

theorem seriesMean_pos (xs : List ℚ) (hne : xs ≠ []) (h : ∀ x ∈ xs, 0 < x) :
    0 < seriesMean xs := by
  unfold seriesMean
  apply div_pos (List.sum_pos xs h hne)
  exact_mod_cast List.length_pos.mpr hne

theorem getLast?_drop_eq {α : Type} (l : List α) (k : Nat) (h : k < l.length) :
    (l.drop k).getLast? = l.getLast? := by
  induction l generalizing k with
  | nil => simp at h
  | cons a t ih =>
    cases k with
    | zero => rfl
    | succ k =>
      have hk : k < t.length := by simpa using h
      rw [List.drop_succ_cons, ih k hk]
      cases t with
      | nil => simp at hk
      | cons b t2 => rw [List.getLast?_cons_cons]

theorem mem_of_getLast?_eq {α : Type} :
    ∀ (l : List α) (b : α), l.getLast? = some b → b ∈ l
  | [], _, h => by simp at h
  | [a], b, h => by
    simp [List.getLast?] at h
    simp [h]
  | a :: c :: t, b, h => by
    rw [List.getLast?_cons_cons] at h
    exact List.mem_cons_of_mem a (mem_of_getLast?_eq (c :: t) b h)

theorem lastValue_map_eq (f : Bar → ℚ) (df : List Bar) (b : Bar)
    (h : df.getLast? = some b) : lastValue (df.map f) = f b := by
  unfold lastValue
  rw [List.getLastD_eq_getLast?, List.getLast?_map, h]
  rfl

theorem exists_getLast?_of_ne_nil {α : Type} (l : List α) (h : l ≠ []) :
    ∃ b, l.getLast? = some b := by
  cases hg : l.getLast? with
  | some b => exact ⟨b, rfl⟩
  | none =>
    rw [List.getLast?_eq_none_iff] at hg
    exact absurd hg h

theorem trendWindow_length (df : List Bar) (h : 10 ≤ df.length) :
    (trendWindow df).length = 10 := by
  simp only [trendWindow, lastN, List.length_drop]
  omega

theorem trendWindow_subset (df : List Bar) : trendWindow df ⊆ df :=
  List.drop_subset _ _

theorem detect_markup_eq_formula (df : List Bar) (h : 30 ≤ df.length) :
    detect_markup df =
      (breakoutFlag df && volBreakoutFlag df && (higherHighs df || higherLows df)) := by
  have h1 : ¬ df.length < ACCUMULATION_RANGE := by
    simp only [ACCUMULATION_RANGE]
    omega
  have h2 : ¬ (trendWindow df).length < 2 := by
    rw [trendWindow_length df (by omega)]
    omega
  simp [detect_markup, h1, h2]

theorem detect_markup_eq_false_of_no_breakout (df : List Bar)
    (hb : breakoutFlag df = false) : detect_markup df = false := by
  unfold detect_markup
  split
  · rfl
  · split <;> simp [hb]

theorem breakoutFlag_eq_false (df : List Bar)
    (h : lastClose df ≤ accHigh df * (105 / 100)) : breakoutFlag df = false := by
  simp only [breakoutFlag, BREAKOUT_THRESHOLD, decide_eq_false_iff_not, not_lt]
  linarith

theorem foldl_process_keys (inputs : List (String × FetchResult)) :
    ∀ st : ScanState, st.markup_data.map Prod.fst = st.markup_candidates →
      (inputs.foldl (fun st p => processSymbol st p.1 p.2) st).markup_data.map Prod.fst =
        (inputs.foldl (fun st p => processSymbol st p.1 p.2) st).markup_candidates := by
  induction inputs with
  | nil =>
    intro st h
    simpa using h
  | cons p rest ih =>
    intro st h
    rw [List.foldl_cons]
    apply ih
    cases p with
    | mk sym res =>
      cases res with
      | err => exact h
      | data df =>
        simp only [processSymbol]
        split
        · exact h
        · split
          · simp [h]
          · exact h

theorem runLoop_keys (inputs : List (String × FetchResult)) :
    (runLoop inputs).markup_data.map Prod.fst = (runLoop inputs).markup_candidates :=
  foldl_process_keys inputs ⟨[], []⟩ rfl

/-! ### Claims -/

/-- C3: a Series with fewer bars than the accumulation-window size 30 is
never flagged: `detect_markup` returns false. -/
theorem C3_short_series_not_flagged (df : List Bar) (h : df.length < 30) :
    detect_markup df = false := by
  simp [detect_markup, ACCUMULATION_RANGE, h]

theorem C3_short_series_not_flagged_witness :
    W3.length < 30 ∧ detect_markup W3 = false :=
  ⟨by decide, C3_short_series_not_flagged W3 (by decide)⟩

/-- C6: the detector is total — in this embedding it is a total function by
construction, mirroring the `try/except` wrapper that maps any internal
failure to `False` — and on the empty Series it returns false without
raising. -/
theorem C6_empty_series_false : detect_markup ([] : List Bar) = false := rfl

/-- C4: for a Series of at least 30 bars whose last close does not exceed
`acc_high * 1.05`, the detector returns false regardless of the volume and
trend conditions — breakout is a necessary condition. -/
theorem C4_breakout_necessary (df : List Bar) (h : 30 ≤ df.length)
    (hle : lastClose df ≤ accHigh df * (105 / 100)) :
    detect_markup df = false :=
  detect_markup_eq_false_of_no_breakout df (breakoutFlag_eq_false df hle)

theorem W4_close_within_band : lastClose W4 ≤ accHigh W4 * (105 / 100) := by
  have h1 : lastClose W4 = 103 := by decide
  have h2 : accHigh W4 = 100 := by decide
  rw [h1, h2]
  norm_num

theorem C4_breakout_necessary_witness :
    30 ≤ W4.length ∧ lastClose W4 ≤ accHigh W4 * (105 / 100) ∧
      detect_markup W4 = false :=
  ⟨by decide, W4_close_within_band,
    C4_breakout_necessary W4 (by decide) W4_close_within_band⟩

/-- C9: the symbol source is total: every failure of the remote fetch is a
`SymbolFetchOutcome.failure`, on which `get_nse_symbol_list` returns the
fixed built-in fallback list of exactly 5 exchange-qualified symbols. -/
theorem C9_fallback_universe :
    get_nse_symbol_list .failure =
        ["RELIANCE.NS", "TCS.NS", "HDFCBANK.NS", "INFY.NS", "LT.NS"] ∧
      (get_nse_symbol_list .failure).length = 5 :=
  ⟨rfl, rfl⟩

/-- C8: in every summary produced by the driver, `markup_count` equals the
length of `markup_candidates`, and `total_scanned` equals the size of the
Universe (the full symbol list), whatever the per-symbol fetch results are. -/
theorem C8_summary_counts (inputs : List (String × FetchResult)) :
    (runScan inputs).1.markup_count = (runScan inputs).1.markup_candidates.length ∧
      (runScan inputs).1.total_scanned = (inputs.map Prod.fst).length :=
  ⟨rfl, rfl⟩

theorem C8_summary_counts_witness :
    (runScan I0).1.markup_count = (runScan I0).1.markup_candidates.length ∧
      (runScan I0).1.total_scanned = (I0.map Prod.fst).length :=
  C8_summary_counts I0

/-- C7: after every run of the driver loop, the set of names in the
summary's `markup_candidates` equals the set of keys of the markup dataset:
a name is flagged iff it keys a dataset entry. -/
theorem C7_candidates_match_dataset (inputs : List (String × FetchResult))
    (n : String) :
    n ∈ (runScan inputs).1.markup_candidates ↔
      n ∈ (runScan inputs).2.map Prod.fst := by
  show n ∈ (runLoop inputs).markup_candidates ↔
    n ∈ (runLoop inputs).markup_data.map Prod.fst
  rw [runLoop_keys inputs]

theorem C7_candidates_match_dataset_witness :
    "RELIANCE" ∈ (runScan I0).1.markup_candidates ↔
      "RELIANCE" ∈ (runScan I0).2.map Prod.fst :=
  C7_candidates_match_dataset I0 "RELIANCE"

/-- C1: for a Series of at least 30 bars whose trend window (the most
recent 10 bars) has at least 2 bars, the detector returns exactly
`breakout AND vol_breakout AND (higher_highs OR higher_lows)`, where
breakout compares the last close against 1.05 times the maximum high of the
most recent 30 bars, vol_breakout compares the last volume against 1.5
times the mean volume of the most recent 30 bars, and the two monotonicity
flags compare consecutive trend-window bars non-strictly. -/
theorem C1_markup_formula (df : List Bar) (h : 30 ≤ df.length)
    (h2 : 2 ≤ (trendWindow df).length) :
    detect_markup df =
      (decide (lastClose df > accHigh df * (105 / 100)) &&
        decide (lastVolume df > avgVol df * (3 / 2)) &&
        (nondecreasing ((trendWindow df).map Bar.high) ||
          nondecreasing ((trendWindow df).map Bar.low))) := by
  have e1 : (1 + BREAKOUT_THRESHOLD : ℚ) = 105 / 100 := by
    norm_num [BREAKOUT_THRESHOLD]
  have e2 : (VOLUME_MULTIPLIER : ℚ) = 3 / 2 := by
    norm_num [VOLUME_MULTIPLIER]
  rw [detect_markup_eq_formula df h]
  unfold breakoutFlag volBreakoutFlag higherHighs higherLows
  rw [e1, e2]

theorem C1_markup_formula_witness :
    30 ≤ W5.length ∧ 2 ≤ (trendWindow W5).length ∧
      detect_markup W5 =
        (decide (lastClose W5 > accHigh W5 * (105 / 100)) &&
          decide (lastVolume W5 > avgVol W5 * (3 / 2)) &&
          (nondecreasing ((trendWindow W5).map Bar.high) ||
            nondecreasing ((trendWindow W5).map Bar.low))) :=
  ⟨by decide, by decide, C1_markup_formula W5 (by decide) (by decide)⟩

/-- C10: for a Series of at least 30 bars, the trend window always holds
exactly 10 bars, so the fewer-than-2-trend-bars branch is unreachable and
the result always includes the `(higher_highs OR higher_lows)` conjunct. -/
theorem C10_trend_window_always_full (df : List Bar) (h : 30 ≤ df.length) :
    (trendWindow df).length = 10 ∧
      detect_markup df =
        (breakoutFlag df && volBreakoutFlag df && (higherHighs df || higherLows df)) :=
  ⟨trendWindow_length df (by omega), detect_markup_eq_formula df h⟩

/-- C2: for a Series of at least 30 bars of positive highs (per the data
model, prices are positive) in which the last bar's close is at most the
last bar's high, the detector returns false: the recent window contains the
last bar, so `acc_high` is at least the last high and the breakout
comparison against `acc_high * 1.05` cannot succeed. -/
theorem C2_close_under_high_not_flagged (df : List Bar) (h : 30 ≤ df.length)
    (hpos : ∀ b ∈ df, 0 < b.high)
    (hle : lastClose df ≤ lastHigh df) :
    detect_markup df = false := by
  have hne : df ≠ [] := by
    intro he
    rw [he] at h
    simp at h
  obtain ⟨b, hb⟩ := exists_getLast?_of_ne_nil df hne
  have hclose : lastClose df = b.close := lastValue_map_eq Bar.close df b hb
  have hhigh : lastHigh df = b.high := lastValue_map_eq Bar.high df b hb
  have hmemdf : b ∈ df := mem_of_getLast?_eq df b hb
  have hdropLt : df.length - ACCUMULATION_RANGE < df.length := by
    unfold ACCUMULATION_RANGE
    omega
  have hrw : (recentWindow df).getLast? = some b := by
    unfold recentWindow lastN
    rw [getLast?_drop_eq df _ hdropLt]
    exact hb
  have hmem : b ∈ recentWindow df := mem_of_getLast?_eq _ b hrw
  have hacc : b.high ≤ accHigh df :=
    le_seriesMax _ _ (List.mem_map_of_mem Bar.high hmem)
  have hbpos : 0 < b.high := hpos b hmemdf
  have hch : b.close ≤ b.high := by
    rw [hclose, hhigh] at hle
    exact hle
  apply detect_markup_eq_false_of_no_breakout
  apply breakoutFlag_eq_false
  rw [hclose]
  linarith

theorem C2_close_under_high_not_flagged_witness :
    30 ≤ W2.length ∧ (∀ b ∈ W2, 0 < b.high) ∧ lastClose W2 ≤ lastHigh W2 ∧
      detect_markup W2 = false :=
  ⟨by decide, by decide, by decide,
    C2_close_under_high_not_flagged W2 (by decide) (by decide) (by decide)⟩

/-- C5 (counterexample): the spec scenario is unrealizable — no Series of
30 bars can have all highs flat at 100 and at the same time its last 10
bars strictly increasing in high, so no input satisfies the scenario's
conditions (whatever the detector would return on it). -/
theorem C5_scenario_unrealizable :
    ¬ ∃ df : List Bar, df.length = 30 ∧ (∀ b ∈ df, b.high = 100 ∧ b.low = 100) ∧
      lastClose df = 106 ∧ lastVolume df = 3 * avgVol df ∧
      strictlyIncreasing ((trendWindow df).map Bar.high) = true := by
  rintro ⟨df, hlen, hflat, -, -, hstrict⟩
  have hlen10 : (trendWindow df).length = 10 := trendWindow_length df (by omega)
  obtain ⟨a, t1, ht1⟩ : ∃ a t1, trendWindow df = a :: t1 := by
    cases htw : trendWindow df with
    | nil =>
      rw [htw] at hlen10
      simp at hlen10
    | cons a t => exact ⟨a, t, rfl⟩
  obtain ⟨b, t2, ht2⟩ : ∃ b t2, t1 = b :: t2 := by
    cases ht : t1 with
    | nil =>
      rw [ht1, ht] at hlen10
      simp at hlen10
    | cons b t => exact ⟨b, t, rfl⟩
  have hamem : a ∈ df := trendWindow_subset df (by
    rw [ht1]
    exact List.mem_cons_self _ _)
  have hbmem : b ∈ df := trendWindow_subset df (by
    rw [ht1, ht2]
    exact List.mem_cons_of_mem _ (List.mem_cons_self _ _))
  have ha : a.high = 100 := (hflat a hamem).1
  have hbh : b.high = 100 := (hflat b hbmem).1
  rw [ht1, ht2, List.map_cons, List.map_cons] at hstrict
  simp [strictlyIncreasing, ha, hbh] at hstrict

theorem W5_volume_triple_mean : lastVolume W5 = 3 * avgVol W5 := by
  have h1 : lastVolume W5 = 87 := by decide
  have h2 : (recentWindow W5).map Bar.volume =
      List.replicate 29 (27 : ℚ) ++ [87] := by decide
  rw [h1]
  unfold avgVol seriesMean
  rw [h2, List.sum_append, List.sum_replicate]
  norm_num

/-- C5 (amended): for every 30-bar Series with all highs and lows flat at
100, last close 106, positive volumes, and last volume equal to 3 times the
30-bar mean volume, the detector returns true — the flat highs already
satisfy the non-strict higher-highs check, so the scenario's
strictly-increasing condition (which contradicts the flat highs) is
dropped. -/
theorem C5_flat_base_breakout_flagged (df : List Bar) (hlen : df.length = 30)
    (hflat : ∀ b ∈ df, b.high = 100 ∧ b.low = 100)
    (hclose : lastClose df = 106)
    (hvolpos : ∀ b ∈ df, 0 < b.volume)
    (hvol : lastVolume df = 3 * avgVol df) :
    detect_markup df = true := by
  have h30 : 30 ≤ df.length := by omega
  have hne : df ≠ [] := by
    intro he
    rw [he] at hlen
    simp at hlen
  have hrwin : recentWindow df = df := by
    unfold recentWindow lastN ACCUMULATION_RANGE
    rw [hlen]
    simp
  have haccHigh : accHigh df = 100 := by
    unfold accHigh
    rw [hrwin]
    apply seriesMax_const
    · intro x hx
      obtain ⟨b, hbmem, hbx⟩ := List.mem_map.mp hx
      rw [← hbx]
      exact (hflat b hbmem).1
    · simpa using hne
  have hbreak : breakoutFlag df = true := by
    simp only [breakoutFlag, decide_eq_true_eq]
    rw [hclose, haccHigh]
    norm_num [BREAKOUT_THRESHOLD]
  have hmean : 0 < avgVol df := by
    unfold avgVol
    apply seriesMean_pos
    · rw [hrwin]
      simpa using hne
    · intro x hx
      rw [hrwin] at hx
      obtain ⟨b, hbmem, hbx⟩ := List.mem_map.mp hx
      rw [← hbx]
      exact hvolpos b hbmem
  have hvolb : volBreakoutFlag df = true := by
    simp only [volBreakoutFlag, decide_eq_true_eq]
    rw [hvol]
    unfold VOLUME_MULTIPLIER
    linarith
  have hhh : higherHighs df = true := by
    unfold higherHighs
    apply nondecreasing_const 100
    intro x hx
    obtain ⟨b, hbmem, hbx⟩ := List.mem_map.mp hx
    rw [← hbx]
    exact (hflat b (trendWindow_subset df hbmem)).1
  rw [detect_markup_eq_formula df h30, hbreak, hvolb, hhh]
  simp

theorem C5_flat_base_breakout_flagged_witness :
    W5.length = 30 ∧ (∀ b ∈ W5, b.high = 100 ∧ b.low = 100) ∧
      lastClose W5 = 106 ∧ (∀ b ∈ W5, 0 < b.volume) ∧
      lastVolume W5 = 3 * avgVol W5 ∧ detect_markup W5 = true :=
  ⟨by decide, by decide, by decide, by decide, W5_volume_triple_mean,
    C5_flat_base_breakout_flagged W5 (by decide) (by decide) (by decide)
      (by decide) W5_volume_triple_mean⟩

theorem C10_trend_window_always_full_witness :
    30 ≤ W5.length ∧
      ((trendWindow W5).length = 10 ∧
        detect_markup W5 =
          (breakoutFlag W5 && volBreakoutFlag W5 && (higherHighs W5 || higherLows W5))) :=
  ⟨by decide, C10_trend_window_always_full W5 (by decide)⟩
